import Mathlib

/-!
Verification of the `flashing_lights` frequency-heatmap pipeline
(`flashing_lights/GenerateHeatMap.py`) against its specification.

The program is shallowly embedded: a video frame (a 2-D numpy array of
grayscale values) is a `Grid`, a list of rows of rationals.  Rationals are
used because the outlier-clipping upper limit `q3 + 1.5*iqr` is fractional.
Fallible numpy operations (out-of-range element assignment, `np.percentile`
on an empty list) are modelled in an `Except` monad; the pure in-bounds
reads the source performs are modelled with default-0 lookups.

Video decoding (`cv2.imreadmulti`) and resizing (`cv2.resize`) are external
collaborators: the embedded `accumPhase`/`GetFreqArray` take the decoded
frame stack directly, plus a `resize` function parameter standing for the
`cv2.resize(frame, (width, height), INTER_AREA)` collaborator.  `resizeId`
is the concrete collaborator instance for `scale_percent = 100`, where
`INTER_AREA` resizing to the unchanged dimensions is the identity.
-/

-- The library marks the rational-number operations reduction-opaque for
-- performance; restoring the default transparency inside this file lets
-- `decide` evaluate the embedded program on concrete inputs.
attribute [local semireducible] Rat.add Rat.mul Rat.sub Rat.inv
  Rat.ofScientific

namespace FlashingLights

/-- A 2-D grid of rational values: one list per row.  Embeds the 2-D numpy
arrays (frames, detection masks, accumulated arrays) of the source. -/
abbrev Grid := List (List ℚ)

/-- Errors the numpy/python runtime can raise in the embedded fragment.
`emptyStack` is the `EmptyStackError` named by the specification; the
source never raises it (no such class exists in the repository). -/
inductive Err where
  | indexError
  | emptyPercentile
  | emptyStack
deriving DecidableEq

/-- Number of columns of a grid, read off its first row
(`np.shape(g)[1]`, with 0 for an empty grid). -/
def gridCols (g : Grid) : Nat := (g.headD []).length

/-- Element read `g[r, c]` with default 0 out of range.  The source only
reads at coordinates that `np.where` produced from the same array, which
are always in range, so the default is never semantically relevant. -/
def getD2 (g : Grid) (r c : Nat) : ℚ := (g.getD r []).getD c 0

/-- Element write `g[r, c] = v`, silently a no-op out of range. -/
def set2 (g : Grid) (r c : Nat) (v : ℚ) : Grid :=
  g.set r ((g.getD r []).set c v)

/-- Element write `g[r, c] = v` as numpy performs it: an out-of-range
index raises `IndexError`. -/
def setC (g : Grid) (r c : Nat) (v : ℚ) : Except Err Grid :=
  if r < g.length ∧ c < (g.getD r []).length then .ok (set2 g r c v)
  else .error .indexError

/-- A row of `w` zeros. -/
def zerosRow (w : Nat) : List ℚ := List.replicate w 0

/-- The `np.zeros((h, w))` grid. -/
def zerosGrid (h w : Nat) : Grid := List.replicate h (zerosRow w)

/-- Column indices of a row satisfying `p`, in increasing order. -/
def rowWhere (p : ℚ → Bool) (row : List ℚ) : List Nat :=
  (List.range row.length).filter (fun c => p (row.getD c 0))

/-- Coordinates of the cells of `g` satisfying `p`, in row-major order:
the embedding of `np.where(cond(g))` (which returns the row list and the
column list of exactly these coordinates, row-major). -/
def gridWhere (p : ℚ → Bool) (g : Grid) : List (Nat × Nat) :=
  (List.range g.length).flatMap
    (fun r => (rowWhere p (g.getD r [])).map (fun c => (r, c)))

/-- Coordinates where `t ≤ g[r, c]`: embeds `np.where(g >= t)`. -/
def whereGE (g : Grid) (t : ℚ) : List (Nat × Nat) :=
  gridWhere (fun v => decide (t ≤ v)) g

/-- Coordinates where `g[r, c] = t`: embeds `np.where(g == t)`. -/
def whereEq (g : Grid) (t : ℚ) : List (Nat × Nat) :=
  gridWhere (fun v => decide (v = t)) g

/-- The source's pervasive nested-loop idiom
`for i in range(n): for j in range(m): body`, threading a grid through a
fallible body. -/
def loop2M (n m : Nat) (f : Grid → Nat → Nat → Except Err Grid)
    (init : Grid) : Except Err Grid :=
  (List.range n).foldlM (fun g i =>
    (List.range m).foldlM (fun g j => f g i j) g) init

/-- The same nested-loop idiom with an infallible body. -/
def loop2 (n m : Nat) (f : Grid → Nat → Nat → Grid) (init : Grid) : Grid :=
  (List.range n).foldl (fun g i =>
    (List.range m).foldl (fun g j => f g i j) g) init

/-- Embedding of `GetFreqCounts(frame, threshold)` (GenerateHeatMap.py,
lines 12-47).  Notes on fidelity:
the guard `if len(np.where(frame == threshold)) > 0` is vacuously true
(`np.where` returns a tuple of length 2 for a 2-D array), so the body runs
unconditionally and the `else: pass` branch is dead; the
`index_count_row`/`index_count_col` lists are dead code and are omitted;
the output array is `np.zeros((len(frame), len(frame)))`, i.e. square of
side `len(frame)`, exactly as in the source.  Inside the loop the source
writes `frequency[row[i], col[j]] = frame[row[i], col[j]]` and then
`frequency[row[i], col[i]] = 1` (note `col[i]`, not `col[j]`). -/
def GetFreqCounts (frame : Grid) (threshold : ℚ) : Except Err Grid :=
  let pts := whereGE frame threshold
  let row := pts.map Prod.fst
  let col := pts.map Prod.snd
  loop2M row.length col.length
    (fun freq i j => do
      let freq ← setC freq (row.getD i 0) (col.getD j 0)
        (getD2 frame (row.getD i 0) (col.getD j 0))
      setC freq (row.getD i 0) (col.getD i 0) 1)
    (zerosGrid frame.length frame.length)

/-- Python `int()` on a rational, clamped to `Nat`: truncation toward
zero (`x.num / x.den` in integer T-division).  The clamp of `Int.toNat`
only engages for negative inputs, which arise only from negative scale
percents, where `cv2.resize` would reject the dimensions anyway. -/
def pyIntToNat (x : ℚ) : Nat := (x.num / (x.den : Int)).toNat

/-- Target width `int(img[0].shape[1] * scale_percent / 100)`. -/
def targetWidth (f0 : Grid) (sp : ℚ) : Nat :=
  pyIntToNat ((gridCols f0 : ℚ) * sp / 100)

/-- Target height `int(img[0].shape[0] * scale_percent / 100)`. -/
def targetHeight (f0 : Grid) (sp : ℚ) : Nat :=
  pyIntToNat ((f0.length : ℚ) * sp / 100)

/-- One iteration of the accumulation loop of `GetFreqArray`
(GenerateHeatMap.py, lines 74-87): resize the frame, run `GetFreqCounts`,
then `freq_array[row[i], col[j]] += 1` over the full nested `i`/`j` loop
on the coordinate lists of `np.where(freq == 1)`.  The guard
`if len(np.where(freq == 1)) > 0` is again vacuously true. -/
def accumStep (resize : Grid → Nat → Nat → Grid) (t : ℚ) (w h : Nat)
    (acc : Grid) (frame : Grid) : Except Err Grid := do
  let freq ← GetFreqCounts (resize frame w h) t
  let pts := whereEq freq 1
  let row := pts.map Prod.fst
  let col := pts.map Prod.snd
  loop2M row.length col.length
    (fun acc i j =>
      setC acc (row.getD i 0) (col.getD j 0)
        (getD2 acc (row.getD i 0) (col.getD j 0) + 1))
    acc

/-- The accumulation phase of `GetFreqArray` (GenerateHeatMap.py, lines
63-87): everything before the `if outliers is True` block.  On an empty
stack, `img[0].shape` raises `IndexError` — there is no explicit guard in
the source.  `freq_array = np.zeros(np.shape(img_resized))` sizes the
output from the resized first frame; the loop then runs over every frame
of the stack (including the first one again). -/
def accumPhase (resize : Grid → Nat → Nat → Grid) (frames : List Grid)
    (t sp : ℚ) : Except Err Grid :=
  match frames with
  | [] => .error .indexError
  | f0 :: _ =>
    let w := targetWidth f0 sp
    let h := targetHeight f0 sp
    let img_resized := resize f0 w h
    frames.foldlM (accumStep resize t w h)
      (zerosGrid img_resized.length (gridCols img_resized))

/-- The `freq_list` of `GetFreqArray` (lines 97-103): the values of the
accumulated array at the coordinates of `np.where(freq_array >= 1)`,
collected by the paired single loop `freq_array[freq_row[i], freq_col[i]]`
in row-major order. -/
def freqListOf (A : Grid) : List ℚ :=
  (whereGE A 1).map (fun p => getD2 A p.1 p.2)

/-- Insertion into a sorted list, ascending. -/
def insertSorted (x : ℚ) : List ℚ → List ℚ
  | [] => [x]
  | y :: ys => if x ≤ y then x :: y :: ys else y :: insertSorted x ys

/-- Ascending sort: embeds `sorted(freq_list)`. -/
def sortList (l : List ℚ) : List ℚ := l.foldr insertSorted []

/-- The `np.percentile(a, q)` linear-interpolation method on an already
sorted nonempty list: position `q/100 * (n-1)`, interpolating linearly
between the neighbouring order statistics.  Junk value 0 on the empty
list (the caller models numpy's error separately). -/
def percentileSorted (l : List ℚ) (q : ℚ) : ℚ :=
  if l.length = 0 then 0
  else
    let pos := q / 100 * ((l.length : ℚ) - 1)
    let i := pyIntToNat pos
    let frac := pos - (i : ℚ)
    l.getD i 0 + frac * (l.getD (min (i + 1) (l.length - 1)) 0 - l.getD i 0)

/-- The clipping bound of lines 105-107:
`q1, q3 = np.percentile(sort_list, 25), np.percentile(sort_list, 75)`,
`iqr = q3 - q1`, `upper_lim = q3 + 1.5*iqr`. -/
def upperLimOf (A : Grid) : ℚ :=
  let s := sortList (freqListOf A)
  let q1 := percentileSorted s 25
  let q3 := percentileSorted s 75
  q3 + 3/2 * (q3 - q1)

/-- Writes value `v` at each coordinate of `ps` in order (out-of-range
coordinates are no-ops; the clipping loop only produces coordinates taken
from the array itself, so none arise from the source). -/
def setAll (g : Grid) (ps : List (Nat × Nat)) (v : ℚ) : Grid :=
  ps.foldl (fun g p => set2 g p.1 p.2 v) g

/-- The outlier-clipping block of `GetFreqArray` (lines 88-117), run when
`outliers is True`.  `np.percentile` raises on an empty list, which is
modelled by the emptiness test on `sort_list`; otherwise the block
computes `upper_lim` and runs the nested `i`/`j` loop
`freq_array[outlier_row[i], outlier_col[j]] = upper_lim` over the
coordinate lists of `np.where(freq_array >= upper_lim)` (whose `len`-test
guard is once more vacuously true). -/
def clipPhase (A : Grid) : Except Err Grid :=
  if sortList (freqListOf A) = [] then .error .emptyPercentile
  else
    let ul := upperLimOf A
    let pts := whereGE A ul
    let row := pts.map Prod.fst
    let col := pts.map Prod.snd
    .ok (loop2 row.length col.length
      (fun acc i j => set2 acc (row.getD i 0) (col.getD j 0) ul) A)

/-- Embedding of `GetFreqArray(videofile, threshold, scale_percent,
outliers)` (GenerateHeatMap.py, lines 50-120), over the decoded frame
stack and the resize collaborator: the accumulation phase followed, when
`outliers` is true, by the clipping block. -/
def GetFreqArray (resize : Grid → Nat → Nat → Grid) (frames : List Grid)
    (t sp : ℚ) (outliers : Bool) : Except Err Grid := do
  let A ← accumPhase resize frames t sp
  if outliers then clipPhase A else pure A

/-- The resize collaborator instance for `scale_percent = 100`:
`cv2.resize` to the unchanged target dimensions with `INTER_AREA` is the
identity. -/
def resizeId (g : Grid) (_w _h : Nat) : Grid := g

/-! ### Lemmas about grid reads and writes -/

/-- Reading after `List.set`: the new value exactly at an in-range hit. -/
theorem getD_set {α : Type} (l : List α) (i : Nat) (v : α) (j : Nat)
    (d : α) :
    (l.set i v).getD j d = if i = j ∧ i < l.length then v else l.getD j d := by
  rw [List.getD_eq_getElem?_getD, List.getD_eq_getElem?_getD,
    List.getElem?_set]
  by_cases h1 : i = j
  · subst h1
    by_cases h2 : i < l.length
    · simp [h2]
    · simp [h2, List.getElem?_eq_none (not_lt.mp h2)]
  · simp [h1]

theorem length_set2 (g : Grid) (r c : Nat) (v : ℚ) :
    (set2 g r c v).length = g.length := by
  simp [set2]

theorem rowLen_set2 (g : Grid) (r c : Nat) (v : ℚ) (a : Nat) :
    ((set2 g r c v).getD a []).length = (g.getD a []).length := by
  unfold set2
  rw [getD_set]
  by_cases h : r = a ∧ r < g.length
  · rcases h with ⟨h1, h2⟩
    subst h1
    simp [h2]
  · simp [h]

/-- Reading after the grid write `set2`: the new value exactly at an
in-range hit. -/
theorem getD2_set2 (g : Grid) (r c : Nat) (v : ℚ) (a b : Nat) :
    getD2 (set2 g r c v) a b =
      if r = a ∧ c = b ∧ r < g.length ∧ c < (g.getD r []).length then v
      else getD2 g a b := by
  unfold getD2 set2
  rw [getD_set]
  by_cases h1 : r = a
  · subst h1
    by_cases h3 : r < g.length
    · rw [if_pos ⟨rfl, h3⟩, getD_set]
      by_cases h2 : c = b
      · subst h2
        by_cases h4 : c < (g.getD r []).length
        · rw [if_pos ⟨rfl, h4⟩, if_pos ⟨rfl, rfl, h3, h4⟩]
        · rw [if_neg (by rintro ⟨_, hh⟩; exact h4 hh),
            if_neg (by rintro ⟨_, _, _, hh⟩; exact h4 hh)]
      · rw [if_neg (by rintro ⟨hh, _⟩; exact h2 hh),
          if_neg (by rintro ⟨_, hh, _, _⟩; exact h2 hh)]
    · rw [if_neg (by rintro ⟨_, hh⟩; exact h3 hh),
        if_neg (by rintro ⟨_, _, hh, _⟩; exact h3 hh)]
  · rw [if_neg (by rintro ⟨hh, _⟩; exact h1 hh),
      if_neg (by rintro ⟨hh, _, _, _⟩; exact h1 hh)]

theorem setAll_nil (g : Grid) (v : ℚ) : setAll g [] v = g := rfl

theorem setAll_cons (g : Grid) (p : Nat × Nat) (ps : List (Nat × Nat))
    (v : ℚ) : setAll g (p :: ps) v = setAll (set2 g p.1 p.2 v) ps v := rfl

theorem setAll_append (g : Grid) (ps qs : List (Nat × Nat)) (v : ℚ) :
    setAll g (ps ++ qs) v = setAll (setAll g ps v) qs v := by
  simp [setAll, List.foldl_append]

theorem length_setAll (g : Grid) (ps : List (Nat × Nat)) (v : ℚ) :
    (setAll g ps v).length = g.length := by
  induction ps generalizing g with
  | nil => rfl
  | cons p ps ih => rw [setAll_cons, ih, length_set2]

theorem rowLen_setAll (g : Grid) (ps : List (Nat × Nat)) (v : ℚ)
    (a : Nat) :
    ((setAll g ps v).getD a []).length = (g.getD a []).length := by
  induction ps generalizing g with
  | nil => rfl
  | cons p ps ih => rw [setAll_cons, ih, rowLen_set2]

/-- Writing one value at a list of coordinates: every in-range listed cell
ends at that value, every other cell is untouched. -/
theorem getD2_setAll (ps : List (Nat × Nat)) (g : Grid) (v : ℚ)
    (a b : Nat) :
    getD2 (setAll g ps v) a b =
      if (a, b) ∈ ps ∧ a < g.length ∧ b < (g.getD a []).length then v
      else getD2 g a b := by
  induction ps generalizing g with
  | nil => simp [setAll_nil]
  | cons p ps ih =>
    rw [setAll_cons, ih, length_set2, rowLen_set2]
    by_cases hb : a < g.length ∧ b < (g.getD a []).length
    · rcases hb with ⟨hb1, hb2⟩
      by_cases hmem : (a, b) ∈ ps
      · rw [if_pos ⟨hmem, hb1, hb2⟩,
          if_pos ⟨List.mem_cons_of_mem _ hmem, hb1, hb2⟩]
      · rw [if_neg (by rintro ⟨hh, _⟩; exact hmem hh)]
        rcases p with ⟨p1, p2⟩
        by_cases hp : (a, b) = (p1, p2)
        · cases hp
          rw [getD2_set2, if_pos ⟨rfl, rfl, hb1, hb2⟩,
            if_pos ⟨List.mem_cons_self _ _, hb1, hb2⟩]
        · rw [getD2_set2,
            if_neg (by
              rintro ⟨h1, h2, _, _⟩
              exact hp (by rw [← h1, ← h2])),
            if_neg (by
              rintro ⟨hh, _⟩
              rcases List.mem_cons.1 hh with hh1 | hh2
              · exact hp hh1
              · exact hmem hh2)]
    · rw [if_neg (by rintro ⟨_, hh⟩; exact hb hh),
        if_neg (by rintro ⟨_, hh⟩; exact hb hh), getD2_set2,
        if_neg (by
          rintro ⟨h1, h2, h3, h4⟩
          subst h1
          subst h2
          exact hb ⟨h3, h4⟩)]

/-- The coordinate cross product the source's nested `i`/`j` loops
enumerate: all pairs `(rowL[i], colL[j])`. -/
def pairsOf (rowL colL : List Nat) : List (Nat × Nat) :=
  (List.range rowL.length).flatMap
    (fun i => (List.range colL.length).map
      (fun j => (rowL.getD i 0, colL.getD j 0)))

theorem foldl_range_set_row (r : Nat) (colL : List Nat) (v : ℚ)
    (g : Grid) (m : Nat) :
    (List.range m).foldl (fun acc j => set2 acc r (colL.getD j 0) v) g =
      setAll g ((List.range m).map (fun j => (r, colL.getD j 0))) v := by
  induction m with
  | zero => rfl
  | succ m ih =>
    rw [List.range_succ, List.foldl_append, List.map_append,
      setAll_append, ih]
    rfl

theorem loop2_set_eq_setAll (rowL colL : List Nat) (v : ℚ) (A : Grid)
    (n : Nat) :
    (List.range n).foldl (fun acc i =>
        (List.range colL.length).foldl (fun acc j =>
          set2 acc (rowL.getD i 0) (colL.getD j 0) v) acc) A =
      setAll A ((List.range n).flatMap
        (fun i => (List.range colL.length).map
          (fun j => (rowL.getD i 0, colL.getD j 0)))) v := by
  induction n with
  | zero => rfl
  | succ n ih =>
    rw [List.range_succ, List.foldl_append, List.flatMap_append,
      setAll_append, ih]
    simp only [List.foldl_cons, List.foldl_nil, List.flatMap_cons,
      List.flatMap_nil, List.append_nil]
    exact foldl_range_set_row _ _ _ _ _

theorem mem_pairsOf {rowL colL : List Nat} {a b : Nat} (ha : a ∈ rowL)
    (hb : b ∈ colL) : (a, b) ∈ pairsOf rowL colL := by
  rcases List.mem_iff_getElem.1 ha with ⟨i, hi, rfl⟩
  rcases List.mem_iff_getElem.1 hb with ⟨j, hj, rfl⟩
  refine List.mem_flatMap.2 ⟨i, List.mem_range.2 hi, ?_⟩
  refine List.mem_map.2 ⟨j, List.mem_range.2 hj, ?_⟩
  rw [List.getD_eq_getElem _ _ hi, List.getD_eq_getElem _ _ hj]

/-- Membership in the embedded `np.where`: exactly the in-range
coordinates whose value satisfies the predicate. -/
theorem mem_gridWhere {p : ℚ → Bool} {g : Grid} {r c : Nat} :
    (r, c) ∈ gridWhere p g ↔
      r < g.length ∧ c < (g.getD r []).length ∧
        p (getD2 g r c) = true := by
  constructor
  · intro h
    rcases List.mem_flatMap.1 h with ⟨r', hr', hm⟩
    rcases List.mem_map.1 hm with ⟨c', hc', heq⟩
    cases heq
    rcases List.mem_filter.1 hc' with ⟨hcr, hp⟩
    exact ⟨List.mem_range.1 hr', List.mem_range.1 hcr, hp⟩
  · rintro ⟨hr, hc, hp⟩
    exact List.mem_flatMap.2 ⟨r, List.mem_range.2 hr,
      List.mem_map.2 ⟨c, List.mem_filter.2 ⟨List.mem_range.2 hc, hp⟩, rfl⟩⟩

theorem mem_whereGE {g : Grid} {t : ℚ} {r c : Nat} :
    (r, c) ∈ whereGE g t ↔
      r < g.length ∧ c < (g.getD r []).length ∧ t ≤ getD2 g r c := by
  rw [whereGE, mem_gridWhere]
  simp

theorem length_insertSorted (x : ℚ) (l : List ℚ) :
    (insertSorted x l).length = l.length + 1 := by
  induction l with
  | nil => rfl
  | cons y ys ih =>
    rw [insertSorted]
    by_cases h : x ≤ y
    · simp [h]
    · simp [h, ih]

theorem length_sortList (l : List ℚ) : (sortList l).length = l.length := by
  induction l with
  | nil => rfl
  | cons x xs ih =>
    show (insertSorted x (sortList xs)).length = xs.length + 1
    rw [length_insertSorted, ih]

theorem except_bind_ok {ε α β : Type} (a : α) (f : α → Except ε β) :
    (Except.ok a : Except ε α) >>= f = f a := rfl

/-! ### Runs with no detected event -/

theorem getD_replicate {α : Type} (n : Nat) (x : α) (c : Nat) (d : α) :
    (List.replicate n x).getD c d = if c < n then x else d := by
  rw [List.getD_eq_getElem?_getD, List.getElem?_replicate]
  by_cases h : c < n <;> simp [h]

theorem zerosRow_getD (m c : Nat) : (zerosRow m).getD c 0 = 0 := by
  rw [zerosRow, getD_replicate]
  by_cases h : c < m <;> simp [h]

theorem rowWhere_zeros {p : ℚ → Bool} (hp : p 0 = false) (m : Nat) :
    rowWhere p (zerosRow m) = [] := by
  unfold rowWhere
  refine List.filter_eq_nil_iff.2 (fun c _ => ?_)
  rw [zerosRow_getD, hp]
  exact Bool.false_ne_true

/-- No cell of an all-zero grid satisfies a predicate rejecting 0:
the embedded `np.where` finds nothing. -/
theorem gridWhere_zeros {p : ℚ → Bool} (hp : p 0 = false) (n m : Nat) :
    gridWhere p (zerosGrid n m) = [] := by
  unfold gridWhere
  refine List.flatMap_eq_nil_iff.2 (fun r hr => ?_)
  have hr2 : r < n := by
    simpa [zerosGrid] using List.mem_range.1 hr
  rw [zerosGrid, getD_replicate, if_pos hr2, rowWhere_zeros hp]
  rfl

theorem whereGE_zeros_one (n m : Nat) : whereGE (zerosGrid n m) 1 = [] :=
  gridWhere_zeros (by decide) n m

theorem whereEq_zeros_one (n m : Nat) : whereEq (zerosGrid n m) 1 = [] :=
  gridWhere_zeros (by decide) n m

/-- A frame with no pixel at/above the threshold produces the all-zero
square mask: the loops of `GetFreqCounts` never run. -/
theorem GetFreqCounts_no_qual {fr : Grid} {t : ℚ}
    (h : whereGE fr t = []) :
    GetFreqCounts fr t = Except.ok (zerosGrid fr.length fr.length) := by
  unfold GetFreqCounts
  rw [h]
  rfl

/-- A frame whose resized version has no pixel at/above the threshold
contributes nothing to the accumulated array. -/
theorem accumStep_id (resize : Grid → Nat → Nat → Grid) (t : ℚ)
    (w h : Nat) (acc fr : Grid)
    (hq : whereGE (resize fr w h) t = []) :
    accumStep resize t w h acc fr = Except.ok acc := by
  unfold accumStep
  rw [GetFreqCounts_no_qual hq]
  simp only [except_bind_ok]
  rw [whereEq_zeros_one]
  rfl

theorem foldlM_accumStep_id (resize : Grid → Nat → Nat → Grid) (t : ℚ)
    (w h : Nat) (l : List Grid) (init : Grid)
    (hz : ∀ fr ∈ l, whereGE (resize fr w h) t = []) :
    l.foldlM (accumStep resize t w h) init = Except.ok init := by
  induction l with
  | nil => rfl
  | cons f0 rest ih =>
    rw [List.foldlM_cons,
      accumStep_id resize t w h init f0 (hz f0 (List.mem_cons_self _ _)),
      except_bind_ok]
    exact ih (fun fr hfr => hz fr (List.mem_cons_of_mem _ hfr))

/-- A stack in which no resized frame has any pixel at/above the
threshold accumulates to the all-zero array. -/
theorem accumPhase_all_zero (resize : Grid → Nat → Nat → Grid)
    (f0 : Grid) (rest : List Grid) (t sp : ℚ)
    (hz : ∀ fr ∈ f0 :: rest,
      whereGE (resize fr (targetWidth f0 sp) (targetHeight f0 sp)) t = []) :
    accumPhase resize (f0 :: rest) t sp =
      Except.ok (zerosGrid
        (resize f0 (targetWidth f0 sp) (targetHeight f0 sp)).length
        (gridCols (resize f0 (targetWidth f0 sp) (targetHeight f0 sp)))) := by
  unfold accumPhase
  exact foldlM_accumStep_id _ _ _ _ _ _ hz

theorem clipPhase_zeros (n m : Nat) :
    clipPhase (zerosGrid n m) = Except.error Err.emptyPercentile := by
  unfold clipPhase
  rw [if_pos]
  unfold freqListOf
  rw [whereGE_zeros_one]
  rfl

/-! ### Clipping characterization -/

/-- When the accumulated array has a nonzero cell, the clipping block
returns the array with the upper limit written over the full cross
product of the outlier coordinate lists. -/
theorem clipPhase_ok (A : Grid) (hne : sortList (freqListOf A) ≠ []) :
    clipPhase A = Except.ok (setAll A
      (pairsOf ((whereGE A (upperLimOf A)).map Prod.fst)
        ((whereGE A (upperLimOf A)).map Prod.snd)) (upperLimOf A)) := by
  unfold clipPhase
  rw [if_neg hne]
  exact congrArg Except.ok
    (loop2_set_eq_setAll ((whereGE A (upperLimOf A)).map Prod.fst)
      ((whereGE A (upperLimOf A)).map Prod.snd) (upperLimOf A) A _)

/-- Decidable equality of embedded run results, so that concrete runs can
be checked by `decide`. -/
instance {ε α : Type} [DecidableEq ε] [DecidableEq α] :
    DecidableEq (Except ε α)
  | .error e, .error f =>
    if h : e = f then .isTrue (by rw [h])
    else .isFalse (by intro hc; cases hc; exact h rfl)
  | .error _, .ok _ => .isFalse (by intro hc; cases hc)
  | .ok _, .error _ => .isFalse (by intro hc; cases hc)
  | .ok x, .ok y =>
    if h : x = y then .isTrue (by rw [h])
    else .isFalse (by intro hc; cases hc; exact h rfl)

/-! ### Claim theorems -/

/-- C1: refuted on the code.  For the single 2×2 frame `[[10,0],[0,10]]`
with threshold 5, scale 100 and clipping disabled, the sum of per-frame
indicator masks is `[[1,0],[0,1]]` (pixel `(0,1)` has value 0 < 5, so its
indicator is 0 in the only frame), but `GetFreqArray` returns
`[[1,1],[1,1]]`: the accumulation loop adds 1 at every `(row[i], col[j])`
cross-product pair of the mask-1 coordinate lists, not only at the mask-1
cells themselves. -/
theorem accumulation_cross_product_eval :
    GetFreqArray resizeId [[[10, 0], [0, 10]]] 5 100 false =
      Except.ok [[1, 1], [1, 1]] ∧
    getD2 [[(10 : ℚ), 0], [0, 10]] 0 1 < 5 := by decide

/-- C2: refuted on the code.  For the frame `[[10,20],[0,0]]` with
threshold 5, `GetFreqCounts` returns `[[10,1],[0,0]]`: cell `(0,0)` holds
the raw intensity 10 — neither 0 nor 1 — even though `frame[0,0] = 10 ≥ 5`
should make it 1.  A later outer iteration's write
`frequency[row[i], col[j]] = frame[row[i], col[j]]` overwrites the 1
placed by `frequency[row[i], col[i]] = 1`. -/
theorem getFreqCounts_intensity_leak_eval :
    GetFreqCounts [[10, 20], [0, 0]] 5 = Except.ok [[10, 1], [0, 0]] ∧
    (5 : ℚ) ≤ getD2 [[10, 20], [0, 0]] 0 0 := by decide

/-- C3: refuted on the code.  For the 1×2 frame `[[0,0]]` (no pixel
reaches threshold 5) `GetFreqCounts` returns the 1×1 grid `[[0]]`:
the output is allocated as `np.zeros((len(frame), len(frame)))`, a
square of side equal to the row count, so a non-square input never gets
an identically-dimensioned output. -/
theorem getFreqCounts_square_shape_eval :
    GetFreqCounts [[0, 0]] 5 = Except.ok [[0]] ∧
    gridCols [[(0 : ℚ), 0]] = 2 ∧ gridCols [[(0 : ℚ)]] = 1 := by decide

/-- C4: refuted on the code.  The well-formed rectangular 1×2 frame
`[[5,7]]` with threshold 5 makes `GetFreqCounts` raise `IndexError`: the
qualifying pixel at column 1 is written into the 1×1 `frequency` array
`np.zeros((len(frame), len(frame)))`, which has no column 1.  The
empty-frame case does return an empty grid, as the claim states. -/
theorem getFreqCounts_wide_frame_index_error :
    GetFreqCounts [[5, 7]] 5 = Except.error Err.indexError ∧
    GetFreqCounts [] 5 = Except.ok [] := by decide

/-- C5: counterexample.  On an empty frame stack `GetFreqArray` fails
with the `IndexError` of `img[0].shape` — not with `EmptyStackError`
(no such guard or exception class exists in the source). -/
theorem empty_stack_error_eval :
    GetFreqArray resizeId [] 5 100 true = Except.error Err.indexError ∧
    Err.indexError ≠ Err.emptyStack := by decide

/-- C5 (amended): calling `GetFreqArray` on an empty frame stack fails
with an index error raised by the unguarded access `img[0].shape` before
any accumulation work, for every resize collaborator, threshold, scale
and outliers flag. -/
theorem empty_stack_raises_index_error
    (resize : Grid → Nat → Nat → Grid) (t sp : ℚ) (outliers : Bool) :
    GetFreqArray resize [] t sp outliers = Except.error Err.indexError :=
  rfl

/-- C6: confirmed.  For every resize collaborator, frame stack, threshold
and scale percent whose accumulation phase returns an array `A` with at
least one cell at/above 1, `GetFreqArray` with `outliers = True` returns
an array no cell of which exceeds
`upperLimOf A = q3 + 1.5*(q3 - q1)`, the quartiles being the 25th and
75th linear-interpolation percentiles of the pre-clip cell values that
are at/above 1.  (The accumulation hypothesis also forces the stack to be
non-empty, since an empty stack makes the accumulation phase fail.) -/
theorem clipped_array_bounded_by_upper_limit
    (resize : Grid → Nat → Nat → Grid) (frames : List Grid) (t sp : ℚ)
    (A : Grid) (hA : accumPhase resize frames t sp = Except.ok A)
    (hne : whereGE A 1 ≠ []) :
    ∃ B, GetFreqArray resize frames t sp true = Except.ok B ∧
      ∀ a b, a < B.length → b < (B.getD a []).length →
        getD2 B a b ≤ upperLimOf A := by
  have hfl : freqListOf A ≠ [] := by
    intro h
    exact hne (List.map_eq_nil_iff.1 h)
  have hsl : sortList (freqListOf A) ≠ [] := by
    intro h
    apply hfl
    have hlen := length_sortList (freqListOf A)
    rw [h] at hlen
    exact List.length_eq_zero.1 hlen.symm
  refine ⟨setAll A
      (pairsOf ((whereGE A (upperLimOf A)).map Prod.fst)
        ((whereGE A (upperLimOf A)).map Prod.snd)) (upperLimOf A),
    ?_, ?_⟩
  · simp only [GetFreqArray, hA, except_bind_ok, if_pos]
    exact clipPhase_ok A hsl
  · intro a b ha hb
    rw [length_setAll] at ha
    rw [rowLen_setAll] at hb
    rw [getD2_setAll]
    by_cases hc :
        (a, b) ∈ pairsOf ((whereGE A (upperLimOf A)).map Prod.fst)
            ((whereGE A (upperLimOf A)).map Prod.snd) ∧
          a < A.length ∧ b < (A.getD a []).length
    · rw [if_pos hc]
    · rw [if_neg hc]
      by_contra hgt
      push_neg at hgt
      have hmem : (a, b) ∈ whereGE A (upperLimOf A) :=
        mem_whereGE.2 ⟨ha, hb, le_of_lt hgt⟩
      exact hc ⟨mem_pairsOf (List.mem_map_of_mem Prod.fst hmem)
        (List.mem_map_of_mem Prod.snd hmem), ha, hb⟩

/-- Witness for C6: the two-frame 2×2 stack with events at `(0,0)` and
`(1,1)` has accumulated array `[[1,0],[0,1]]`, a nonzero cell, and the
clipped run is bounded by the upper limit. -/
theorem clipped_array_bounded_witness :
    accumPhase resizeId [[[10, 0], [0, 0]], [[0, 0], [0, 10]]] 5 100 =
      Except.ok [[1, 0], [0, 1]] ∧
    whereGE [[(1 : ℚ), 0], [0, 1]] 1 ≠ [] ∧
    ∃ B, GetFreqArray resizeId [[[10, 0], [0, 0]], [[0, 0], [0, 10]]]
          5 100 true = Except.ok B ∧
      ∀ a b, a < B.length → b < (B.getD a []).length →
        getD2 B a b ≤ upperLimOf [[1, 0], [0, 1]] :=
  ⟨by decide, by decide,
    clipped_array_bounded_by_upper_limit resizeId
      [[[10, 0], [0, 0]], [[0, 0], [0, 10]]] 5 100 [[1, 0], [0, 1]]
      (by decide) (by decide)⟩

/-- C7: refuted on the code.  For the stack of the two 2×2 frames
`[[10,0],[0,0]]` and `[[0,0],[0,10]]` with threshold 5 and scale 100, the
pre-clip accumulated array is `[[1,0],[0,1]]` and the upper limit is
`q3 + 1.5*(q3-q1) = 1`.  Cell `(0,1)` has pre-clip value `0 < 1`, yet the
clipped output is `[[1,1],[1,1]]`: the clipping loop writes `upper_lim`
at every `(outlier_row[i], outlier_col[j])` cross-product pair, changing
cells that are below the limit. -/
theorem clip_cross_product_eval :
    accumPhase resizeId [[[10, 0], [0, 0]], [[0, 0], [0, 10]]] 5 100 =
      Except.ok [[1, 0], [0, 1]] ∧
    upperLimOf [[1, 0], [0, 1]] = 1 ∧
    GetFreqArray resizeId [[[10, 0], [0, 0]], [[0, 0], [0, 10]]] 5 100 true =
      Except.ok [[1, 1], [1, 1]] ∧
    getD2 [[(1 : ℚ), 0], [0, 1]] 0 1 < 1 := by decide

/-- C8: confirmed.  For every resize collaborator, frame stack, threshold
and scale percent, `GetFreqArray` with `outliers = False` returns exactly
the accumulation phase's array (the pre-clip values of the
`outliers = True` run on the same inputs), and the `outliers = True` run
is that same accumulation phase followed only by the clipping block: the
flag affects nothing but the final clipping step. -/
theorem outliers_flag_only_affects_clipping
    (resize : Grid → Nat → Nat → Grid) (frames : List Grid) (t sp : ℚ) :
    GetFreqArray resize frames t sp false = accumPhase resize frames t sp ∧
    GetFreqArray resize frames t sp true =
      accumPhase resize frames t sp >>= clipPhase := by
  constructor <;>
    cases h : accumPhase resize frames t sp <;> simp [GetFreqArray, h]

/-- C9: confirmed.  For the stack of three 4×4 frames — frames 0 and 1
all zero except value 10 at `(1,1)`, frame 2 all zero — with threshold 5,
scale percent 100 and clipping disabled, `GetFreqArray` returns the 4×4
array that is all zeros except cell `(1,1) = 2`. -/
theorem scenario_three_frames_eval :
    GetFreqArray resizeId
      [[[0, 0, 0, 0], [0, 10, 0, 0], [0, 0, 0, 0], [0, 0, 0, 0]],
       [[0, 0, 0, 0], [0, 10, 0, 0], [0, 0, 0, 0], [0, 0, 0, 0]],
       [[0, 0, 0, 0], [0, 0, 0, 0], [0, 0, 0, 0], [0, 0, 0, 0]]]
      5 100 false =
      Except.ok
        [[0, 0, 0, 0], [0, 2, 0, 0], [0, 0, 0, 0], [0, 0, 0, 0]] := by
  decide

/-- C10: confirmed.  For every non-empty frame stack in which no pixel of
any resized frame is at/above the threshold, `GetFreqArray` with
`outliers = True` fails with the error of the percentile computation over
the empty list of nonzero cells, while the same call with
`outliers = False` returns the all-zero accumulated array. -/
theorem no_events_percentile_error (resize : Grid → Nat → Nat → Grid)
    (f0 : Grid) (rest : List Grid) (t sp : ℚ)
    (hz : ∀ fr ∈ f0 :: rest,
      whereGE (resize fr (targetWidth f0 sp) (targetHeight f0 sp)) t = []) :
    GetFreqArray resize (f0 :: rest) t sp true =
      Except.error Err.emptyPercentile ∧
    GetFreqArray resize (f0 :: rest) t sp false =
      Except.ok (zerosGrid
        (resize f0 (targetWidth f0 sp) (targetHeight f0 sp)).length
        (gridCols (resize f0 (targetWidth f0 sp) (targetHeight f0 sp)))) := by
  have hacc := accumPhase_all_zero resize f0 rest t sp hz
  constructor
  · simp only [GetFreqArray, hacc, except_bind_ok, if_pos]
    exact clipPhase_zeros _ _
  · simp only [GetFreqArray, hacc, except_bind_ok, if_neg]
    rfl

/-- Witness for C10: a single all-zero 2×2 frame with threshold 5 at
scale 100 has no event anywhere; the clipped run fails in the percentile
computation and the unclipped run returns the all-zero array. -/
theorem no_events_percentile_error_witness :
    (∀ fr ∈ [[[(0 : ℚ), 0], [0, 0]]],
      whereGE (resizeId fr (targetWidth [[(0 : ℚ), 0], [0, 0]] 100)
        (targetHeight [[(0 : ℚ), 0], [0, 0]] 100)) 5 = []) ∧
    GetFreqArray resizeId [[[(0 : ℚ), 0], [0, 0]]] 5 100 true =
      Except.error Err.emptyPercentile ∧
    GetFreqArray resizeId [[[(0 : ℚ), 0], [0, 0]]] 5 100 false =
      Except.ok (zerosGrid
        (resizeId [[(0 : ℚ), 0], [0, 0]]
          (targetWidth [[(0 : ℚ), 0], [0, 0]] 100)
          (targetHeight [[(0 : ℚ), 0], [0, 0]] 100)).length
        (gridCols (resizeId [[(0 : ℚ), 0], [0, 0]]
          (targetWidth [[(0 : ℚ), 0], [0, 0]] 100)
          (targetHeight [[(0 : ℚ), 0], [0, 0]] 100)))) :=
  ⟨by decide,
    no_events_percentile_error resizeId [[(0 : ℚ), 0], [0, 0]] [] 5 100
      (by decide)⟩

end FlashingLights
